import Mathlib

/-!
Verification development for the tundra e-commerce backend.

Shallow embedding of the Go sources:
* `internal/database/models/{product,order}.go` and the join table model
* `internal/server/routes.go` (`createOrderHandler`, `listProductsHandler`,
  `loginHandler`, the product CRUD handlers, `invalidateProductCache`,
  `parsePositiveInt`, `RegisterRoutes` rate-limit wiring)
* `internal/auth/jwt.go` (`GenerateJWT`, `ValidateJWT`) and
  `internal/auth/validation.go` (`ValidateEmail`)
* the `ratelimit` package (`DefaultConfig`, `NewRateLimiter`, the three
  tier constructors) and the `cloudinary` package (`UploadImage`)

UUIDs are modelled as `Nat`, Go `int64`/`int` as `Int` (no claim depends on
64-bit overflow: stock arithmetic stays within the initial stock's range),
`float64` prices as `Rat` (no claim depends on floating-point rounding),
and byte slices as `List Nat`.  Database and network effects are made
explicit: the database is a record of row lists, fallible external calls
(GORM writes, Cloudinary, bcrypt) are oracle parameters, and the handler
returns the persisted state together with its HTTP-level outcome.
-/

namespace Tundra

/-! ### Data model (internal/database/models) -/

/-- `models.Product` (product.go). -/
structure Product where
  id : Nat
  name : String
  description : String
  price : Rat
  stock : Int
  category : String
  imageURL : String
  userID : Nat
deriving DecidableEq, Repr

/-- `models.Order` (order.go); the `Products` association is represented by
the `OrderProductRow` join rows. -/
structure OrderRow where
  id : Nat
  userID : Nat
  description : String
  totalPrice : Rat
  status : String
deriving DecidableEq, Repr

/-- `models.OrderProduct` (the join table). -/
structure OrderProductRow where
  orderID : Nat
  productID : Nat
  quantity : Int
  price : Rat
deriving DecidableEq, Repr

/-- The relational store the order path touches. -/
structure DB where
  products : List Product
  orders : List OrderRow
  orderProducts : List OrderProductRow
deriving DecidableEq, Repr

/-- One entry of the request body of `POST /orders`
(routes.go:734-737). -/
structure OrderItem where
  productID : Nat
  quantity : Int
deriving DecidableEq, Repr

/-! ### createOrderHandler (routes.go:725-845)

The handler is embedded as a function from the committed database, the
request and the write-failure oracles to the persisted database, the
response and a trace of the database operations it issued inside the
transaction.  `saveErr k` tells whether the `tx.Save` for the `k`-th item
fails; `orderCreateErr` / `orderItemsErr` whether `tx.Create` fails for the
order row / the join rows.  `freshOrderID` stands for the UUID the database
generates for the order row. -/

/-- Database operations issued inside the order transaction, in issue
order.  `lock` is the `SELECT ... FOR UPDATE` of routes.go:770, `check` the
stock comparison of routes.go:777, `write` the `tx.Save` of
routes.go:789. -/
inductive Ev where
  | lock (pid : Nat)
  | check (pid : Nat)
  | write (pid : Nat)
  | createOrder
  | createOrderProducts
  | commit
  | rollback
deriving DecidableEq, Repr

/-- Error responses of `createOrderHandler`. -/
inductive OrderErr where
  | invalidBody
  | emptyOrder
  | productNotFound (pid : Nat)
  | insufficientStock (pid : Nat)
  | stockUpdateFailed
  | orderCreateFailed
  | orderItemsCreateFailed
deriving DecidableEq, Repr

/-- Outcome of `createOrderHandler`. -/
inductive OrderResult where
  | err (e : OrderErr)
  | created (o : OrderRow)
deriving DecidableEq, Repr

/-- `tx.Where("id = ?", pid).First(&product)`: first row with the given
primary key. -/
def findProduct (ps : List Product) (pid : Nat) : Option Product :=
  ps.find? (fun p => p.id == pid)

/-- `tx.Save(&product)`: replace the row(s) carrying `p.id` by `p`. -/
def saveProduct (ps : List Product) (p : Product) : List Product :=
  ps.map (fun q => if q.id == p.id then p else q)

/-- Result of the per-item loop of routes.go:766-801: either the
transaction-local product table, the accumulated total price and join rows,
or the error that aborted the loop; in both cases together with the trace
of issued operations. -/
inductive LoopRes where
  | ok (txProducts : List Product) (totalPrice : Rat)
      (ops : List OrderProductRow) (trace : List Ev)
  | fail (e : OrderErr) (trace : List Ev)
deriving Repr

/-- The per-item loop of routes.go:766-801.  Each iteration locks and reads
the product row (routes.go:770), checks stock (routes.go:777), decrements
and saves (routes.go:788-789), and records the join row with the price at
order time (routes.go:796-800).  `idx` indexes the `saveErr` oracle. -/
def processItems (saveErr : Nat → Bool) :
    List OrderItem → Nat → List Product → Rat → List OrderProductRow → LoopRes
  | [], _, ps, tp, ops => .ok ps tp ops []
  | item :: rest, idx, ps, tp, ops =>
    match findProduct ps item.productID with
    | none => .fail (.productNotFound item.productID) [.lock item.productID]
    | some p =>
      if p.stock < item.quantity then
        .fail (.insufficientStock item.productID)
          [.lock item.productID, .check item.productID]
      else if saveErr idx then
        .fail .stockUpdateFailed [.lock item.productID, .check item.productID]
      else
        match processItems saveErr rest (idx + 1)
            (saveProduct ps { p with stock := p.stock - item.quantity })
            (tp + p.price * (item.quantity : Rat))
            (ops ++ [{ orderID := 0, productID := p.id,
                       quantity := item.quantity, price := p.price }]) with
        | .ok ps' tp' ops' tr =>
          .ok ps' tp' ops'
            ([.lock item.productID, .check item.productID, .write item.productID] ++ tr)
        | .fail e tr =>
          .fail e
            ([.lock item.productID, .check item.productID, .write item.productID] ++ tr)

/-- `createOrderHandler` (routes.go:725-845).  Gin's binding rejects any
item with non-positive quantity (`binding:"required,gt=0"`, routes.go:736)
before the handler body runs; the empty-order check is routes.go:744.  On
any failure inside the transaction the handler calls `tx.Rollback` and
returns the committed database unchanged; only after all items succeed are
the order row and join rows created and the single `tx.Commit` issued
(routes.go:828-832). -/
def createOrderHandler (db : DB) (userID : Nat) (items : List OrderItem)
    (saveErr : Nat → Bool) (orderCreateErr orderItemsErr : Bool)
    (freshOrderID : Nat) : DB × OrderResult × List Ev :=
  if items.any (fun it => it.quantity ≤ 0) then
    (db, .err .invalidBody, [])
  else if items.length = 0 then
    (db, .err .emptyOrder, [])
  else
    match processItems saveErr items 0 db.products 0 [] with
    | .fail e tr => (db, .err e, tr ++ [.rollback])
    | .ok ps tp ops tr =>
      if orderCreateErr then
        (db, .err .orderCreateFailed, tr ++ [.rollback])
      else if orderItemsErr then
        (db, .err .orderItemsCreateFailed, tr ++ [.createOrder, .rollback])
      else
        ({ products := ps,
           orders := db.orders ++
             [{ id := freshOrderID, userID := userID,
                description := "Order with " ++ toString items.length ++ " item(s)",
                totalPrice := tp, status := "pending" }],
           orderProducts := db.orderProducts ++
             ops.map (fun op => { op with orderID := freshOrderID }) },
         .created
           { id := freshOrderID, userID := userID,
             description := "Order with " ++ toString items.length ++ " item(s)",
             totalPrice := tp, status := "pending" },
         tr ++ [.createOrder, .createOrderProducts, .commit])

/-! ### Lemmas about the order transaction -/

/-- Refinement relation between a transaction-local product table and the
table it evolved from: rows keep their primary key and stock only
decreases. -/
def Rstock (p' p : Product) : Prop := p'.id = p.id ∧ p'.stock ≤ p.stock

theorem Rstock_trans {a b c : Product} (h₁ : Rstock a b) (h₂ : Rstock b c) :
    Rstock a c :=
  ⟨h₁.1.trans h₂.1, h₁.2.trans h₂.2⟩

theorem forall₂_Rstock_refl (ps : List Product) : List.Forall₂ Rstock ps ps :=
  List.forall₂_same.mpr (fun _ _ => ⟨rfl, le_refl _⟩)

theorem forall₂_Rstock_trans :
    ∀ {a b c : List Product}, List.Forall₂ Rstock a b → List.Forall₂ Rstock b c →
      List.Forall₂ Rstock a c := by
  intro a b c hab
  induction hab generalizing c with
  | nil =>
    intro hbc
    cases hbc
    exact List.Forall₂.nil
  | cons h _ ih =>
    intro hbc
    cases hbc with
    | cons h' hs' => exact List.Forall₂.cons (Rstock_trans h h') (ih hs')

/-- `tx.Save` keeps the list of primary keys unchanged. -/
theorem saveProduct_map_id (ps : List Product) (p : Product) :
    (saveProduct ps p).map Product.id = ps.map Product.id := by
  simp only [saveProduct, List.map_map]
  apply List.map_congr_left
  intro q _
  by_cases h : q.id = p.id
  · simp [Function.comp, h]
  · simp [Function.comp, h]

/-- `tx.Save` of a row with non-negative stock preserves non-negativity of
all stocks. -/
theorem saveProduct_stock_nonneg {ps : List Product} {p : Product}
    (hps : ∀ q ∈ ps, 0 ≤ q.stock) (hp : 0 ≤ p.stock) :
    ∀ q ∈ saveProduct ps p, 0 ≤ q.stock := by
  intro q hq
  simp only [saveProduct, List.mem_map] at hq
  obtain ⟨q0, hq0, rfl⟩ := hq
  by_cases h : q0.id = p.id
  · simpa [h] using hp
  · simpa [h] using hps q0 hq0

/-- Saving the locked row with its stock decremented by a non-negative
quantity refines the previous table. -/
theorem saveProduct_forall₂ {ps : List Product} {p : Product} {pid : Nat} {qn : Int}
    (hnd : (ps.map Product.id).Nodup)
    (hfind : findProduct ps pid = some p) (hq : 0 ≤ qn) :
    List.Forall₂ Rstock (saveProduct ps { p with stock := p.stock - qn }) ps := by
  have hpmem : p ∈ ps := List.mem_of_find?_eq_some hfind
  rw [saveProduct, List.forall₂_map_left_iff]
  refine List.forall₂_same.mpr (fun q hqmem => ?_)
  by_cases h : q.id = p.id
  · have hqp : q = p := List.inj_on_of_nodup_map hnd hqmem hpmem h
    subst hqp
    simp only [h, beq_self_eq_true, if_true]
    refine ⟨rfl, ?_⟩
    show q.stock - qn ≤ q.stock
    omega
  · simp only [show (q.id == p.id) = false by simpa using h, Bool.false_eq_true,
      if_false]
    exact ⟨rfl, le_refl _⟩

/-- Loop invariant for routes.go:766-801: a successful pass over the items
leaves every stock non-negative and only ever decreases stocks, provided
primary keys are unique and quantities positive. -/
theorem processItems_ok_inv (saveErr : Nat → Bool) :
    ∀ (items : List OrderItem) (idx : Nat) (ps : List Product) (tp : Rat)
      (ops : List OrderProductRow) (ps' : List Product) (tp' : Rat)
      (ops' : List OrderProductRow) (tr : List Ev),
      (∀ it ∈ items, 0 < it.quantity) →
      (ps.map Product.id).Nodup →
      (∀ q ∈ ps, 0 ≤ q.stock) →
      processItems saveErr items idx ps tp ops = .ok ps' tp' ops' tr →
      (∀ q ∈ ps', 0 ≤ q.stock) ∧ List.Forall₂ Rstock ps' ps := by
  intro items
  induction items with
  | nil =>
    intro idx ps tp ops ps' tp' ops' tr _ _ hnn hrun
    simp only [processItems] at hrun
    cases hrun
    exact ⟨hnn, forall₂_Rstock_refl ps⟩
  | cons item rest ih =>
    intro idx ps tp ops ps' tp' ops' tr hqty hnd hnn hrun
    simp only [processItems] at hrun
    split at hrun
    · cases hrun
    next p hfind =>
      split at hrun
      · cases hrun
      next hstock =>
        split at hrun
        · cases hrun
        next herr =>
          have hqpos : 0 < item.quantity := hqty item (List.mem_cons_self _ _)
          have hmidnn : ∀ q ∈ saveProduct ps { p with stock := p.stock - item.quantity },
              0 ≤ q.stock := by
            refine saveProduct_stock_nonneg hnn ?_
            have := hnn p (List.mem_of_find?_eq_some hfind)
            show 0 ≤ p.stock - item.quantity
            omega
          have hmidnd :
              ((saveProduct ps { p with stock := p.stock - item.quantity }).map
                Product.id).Nodup := by
            rw [saveProduct_map_id]; exact hnd
          have hmidref : List.Forall₂ Rstock
              (saveProduct ps { p with stock := p.stock - item.quantity }) ps :=
            saveProduct_forall₂ hnd hfind (by omega)
          split at hrun
          next hrec =>
            cases hrun
            have hrest := ih (idx + 1) _ _ _ _ _ _ _
              (fun it hit => hqty it (List.mem_cons_of_mem _ hit)) hmidnd hmidnn hrec
            exact ⟨hrest.1, forall₂_Rstock_trans hrest.2 hmidref⟩
          next hrec => cases hrun

/-- The per-item loop never issues a `commit`: the single commit of the
transaction happens after the loop (routes.go:829). -/
theorem processItems_trace_no_commit (saveErr : Nat → Bool) :
    ∀ (items : List OrderItem) (idx : Nat) (ps : List Product) (tp : Rat)
      (ops : List OrderProductRow),
      (∀ ps' tp' ops' tr, processItems saveErr items idx ps tp ops = .ok ps' tp' ops' tr →
        Ev.commit ∉ tr) ∧
      (∀ er tr, processItems saveErr items idx ps tp ops = .fail er tr →
        Ev.commit ∉ tr) := by
  intro items
  induction items with
  | nil =>
    intro idx ps tp ops
    refine ⟨?_, ?_⟩
    · intro ps' tp' ops' tr hrun
      simp only [processItems] at hrun
      cases hrun
      simp
    · intro er tr hrun
      simp only [processItems] at hrun
      cases hrun
  | cons item rest ih =>
    intro idx ps tp ops
    refine ⟨?_, ?_⟩
    · intro ps' tp' ops' tr hrun
      simp only [processItems] at hrun
      split at hrun
      · cases hrun
      next p hfind =>
        split at hrun
        · cases hrun
        next hstock =>
          split at hrun
          · cases hrun
          next herr =>
            split at hrun
            next hrec =>
              cases hrun
              have hmem := (ih (idx + 1) _ _ _).1 _ _ _ _ hrec
              simp [List.mem_append, List.mem_cons, hmem]
            next hrec => cases hrun
    · intro er tr hrun
      simp only [processItems] at hrun
      split at hrun
      next hfind =>
        cases hrun
        simp
      next p hfind =>
        split at hrun
        next hstock =>
          cases hrun
          simp
        next hstock =>
          split at hrun
          next herr =>
            cases hrun
            simp
          next herr =>
            split at hrun
            next hrec => cases hrun
            next hrec =>
              cases hrun
              have hmem := (ih (idx + 1) _ _ _).2 _ _ hrec
              simp [List.mem_append, List.mem_cons, hmem]

/-- A successful pass over the items produces exactly the
lock-check-write triple for each item, in request order. -/
theorem processItems_ok_trace (saveErr : Nat → Bool) :
    ∀ (items : List OrderItem) (idx : Nat) (ps : List Product) (tp : Rat)
      (ops : List OrderProductRow) (ps' : List Product) (tp' : Rat)
      (ops' : List OrderProductRow) (tr : List Ev),
      processItems saveErr items idx ps tp ops = .ok ps' tp' ops' tr →
      tr = (items.map fun it =>
        [Ev.lock it.productID, Ev.check it.productID, Ev.write it.productID]).flatten := by
  intro items
  induction items with
  | nil =>
    intro idx ps tp ops ps' tp' ops' tr hrun
    simp only [processItems] at hrun
    cases hrun
    simp
  | cons item rest ih =>
    intro idx ps tp ops ps' tp' ops' tr hrun
    simp only [processItems] at hrun
    split at hrun
    · cases hrun
    next p hfind =>
      split at hrun
      · cases hrun
      next hstock =>
        split at hrun
        · cases hrun
        next herr =>
          split at hrun
          next hrec =>
            cases hrun
            have := ih (idx + 1) _ _ _ _ _ _ _ hrec
            simp [this]
          next hrec => cases hrun

/-! ### Claims C1-C3 -/

/-- Sample rows used by the concrete witnesses below. -/
def sampleProduct : Product :=
  { id := 1, name := "Laptop", description := "A laptop", price := 899,
    stock := 5, category := "electronics", imageURL := "", userID := 9 }

/-- Sample database used by the concrete witnesses below. -/
def sampleDB : DB := { products := [sampleProduct], orders := [], orderProducts := [] }

/-- C1: stock is deducted only when the stock just read covers the
requested quantity, so after `createOrderHandler` completes every
persisted stock is non-negative and each product keeps its primary key
with a stock no larger than before the handler ran (nothing is deducted
beyond what was available). -/
theorem C1_stock_never_negative (db : DB) (uid : Nat) (items : List OrderItem)
    (saveErr : Nat → Bool) (oe oi : Bool) (fid : Nat)
    (hnn : ∀ p ∈ db.products, 0 ≤ p.stock)
    (hnd : (db.products.map Product.id).Nodup) :
    (∀ p ∈ (createOrderHandler db uid items saveErr oe oi fid).1.products, 0 ≤ p.stock) ∧
    List.Forall₂ Rstock (createOrderHandler db uid items saveErr oe oi fid).1.products
      db.products := by
  simp only [createOrderHandler]
  split
  · exact ⟨hnn, forall₂_Rstock_refl _⟩
  next hany =>
    split
    · exact ⟨hnn, forall₂_Rstock_refl _⟩
    next hlen =>
      split
      next hrec => exact ⟨hnn, forall₂_Rstock_refl _⟩
      next hrec =>
        have hqty : ∀ it ∈ items, 0 < it.quantity := by
          intro it hit
          by_contra hle
          refine hany ?_
          simp only [List.any_eq_true, decide_eq_true_eq]
          exact ⟨it, hit, by omega⟩
        have hinv := processItems_ok_inv saveErr items 0 db.products 0 [] _ _ _ _
          hqty hnd hnn hrec
        split
        · exact ⟨hnn, forall₂_Rstock_refl _⟩
        split
        · exact ⟨hnn, forall₂_Rstock_refl _⟩
        exact hinv

/-- Witness: C1 at a concrete database and order request. -/
theorem C1_stock_never_negative_witness :
    (∀ p ∈ (createOrderHandler sampleDB 7 [⟨1, 2⟩] (fun _ => false) false false 42).1.products,
      0 ≤ p.stock) ∧
    List.Forall₂ Rstock
      (createOrderHandler sampleDB 7 [⟨1, 2⟩] (fun _ => false) false false 42).1.products
      sampleDB.products :=
  C1_stock_never_negative sampleDB 7 [⟨1, 2⟩] (fun _ => false) false false 42
    (by decide) (by decide)

/-- C2: every failure path of `createOrderHandler` rolls the transaction
back, leaving the database exactly as it was (no order row, no join row,
no stock change), and the trace contains a `commit` exactly when the order
was created, and then exactly once. -/
theorem C2_failure_rolls_back_atomically (db : DB) (uid : Nat) (items : List OrderItem)
    (saveErr : Nat → Bool) (oe oi : Bool) (fid : Nat) :
    (∀ e, (createOrderHandler db uid items saveErr oe oi fid).2.1 = .err e →
      (createOrderHandler db uid items saveErr oe oi fid).1 = db) ∧
    ((createOrderHandler db uid items saveErr oe oi fid).2.2).count Ev.commit =
      (match (createOrderHandler db uid items saveErr oe oi fid).2.1 with
       | .created _ => 1
       | .err _ => 0) := by
  simp only [createOrderHandler]
  split
  · exact ⟨fun _ _ => rfl, rfl⟩
  split
  · exact ⟨fun _ _ => rfl, rfl⟩
  split
  next hrec =>
    refine ⟨fun _ _ => rfl, ?_⟩
    have h := (processItems_trace_no_commit saveErr items 0 db.products 0 []).2 _ _ hrec
    simp [List.count_append, List.count_eq_zero_of_not_mem h]
  next hrec =>
    have h := (processItems_trace_no_commit saveErr items 0 db.products 0 []).1 _ _ _ _ hrec
    split
    · refine ⟨fun _ _ => rfl, ?_⟩
      simp [List.count_append, List.count_eq_zero_of_not_mem h]
    split
    · refine ⟨fun _ _ => rfl, ?_⟩
      simp [List.count_append, List.count_eq_zero_of_not_mem h]
    refine ⟨fun e he => absurd he (by simp), ?_⟩
    simp [List.count_append, List.count_eq_zero_of_not_mem h]

/-- Witness: C2 at a concrete failing order (requested quantity 10 exceeds
the stock of 5), showing the database is returned unchanged. -/
theorem C2_failure_rolls_back_atomically_witness :
    (createOrderHandler sampleDB 7 [⟨1, 10⟩] (fun _ => false) false false 42).1 = sampleDB :=
  (C2_failure_rolls_back_atomically sampleDB 7 [⟨1, 10⟩] (fun _ => false) false false 42).1
    (OrderErr.insufficientStock 1) (by decide)

/-- C3: a successful `createOrderHandler` run issues, for each requested
item in the exact order listed in the request body, the row lock, then the
stock check, then the stock write, and after all items the order creation,
the join-row creation and the single commit - nothing else. -/
theorem C3_lock_check_write_commit_order (db : DB) (uid : Nat) (items : List OrderItem)
    (saveErr : Nat → Bool) (oe oi : Bool) (fid : Nat)
    (hok : ∃ o, (createOrderHandler db uid items saveErr oe oi fid).2.1 = .created o) :
    (createOrderHandler db uid items saveErr oe oi fid).2.2 =
      (items.map fun it =>
        [Ev.lock it.productID, Ev.check it.productID, Ev.write it.productID]).flatten
      ++ [Ev.createOrder, Ev.createOrderProducts, Ev.commit] := by
  revert hok
  simp only [createOrderHandler]
  split
  · intro hok; exact absurd hok (by simp)
  split
  · intro hok; exact absurd hok (by simp)
  split
  next hrec =>
    intro hok; exact absurd hok (by simp)
  next hrec =>
    have htr := processItems_ok_trace saveErr items 0 db.products 0 [] _ _ _ _ hrec
    split
    · intro hok; exact absurd hok (by simp)
    split
    · intro hok; exact absurd hok (by simp)
    intro _
    simp [htr]

/-- Witness: C3 at a concrete successful order of one item. -/
theorem C3_lock_check_write_commit_order_witness :
    (createOrderHandler sampleDB 7 [⟨1, 2⟩] (fun _ => false) false false 42).2.2 =
      [Ev.lock 1, Ev.check 1, Ev.write 1,
       Ev.createOrder, Ev.createOrderProducts, Ev.commit] := by
  have h := C3_lock_check_write_commit_order sampleDB 7 [⟨1, 2⟩] (fun _ => false) false false 42
    ⟨_, rfl⟩
  simpa using h

/-! ### C4: concurrent orders against the same product

Each client runs the per-item fragment of `createOrderHandler` for one
shared product inside its own database transaction: the
`SELECT ... FOR UPDATE` of routes.go:770 atomically acquires the row lock
and reads the stock, the stock check (routes.go:777) and the decrementing
`tx.Save` (routes.go:788-789) run while the lock is held, and
`tx.Commit` / `tx.Rollback` (routes.go:829 / the failure paths) release it.
The row lock is modelled exactly as the database provides it: a `lockRead`
step is enabled only while no transaction holds the lock, and the lock is
released only by the holder committing or rolling back.  All other
interleavings of the clients are allowed. -/

/-- Where one client's transaction stands. -/
inductive TxPhase where
  | start
  | locked (readStock : Int)
  | written
  | done (deducted : Nat)
deriving DecidableEq, Repr

/-- Shared state: the committed stock of the product row (transactional
writes become visible here only while the writer holds the row lock, which
is what the lock guarantees), the current lock holder, and each client's
phase. -/
structure ConcState (n : Nat) where
  stock : Int
  lockOwner : Option (Fin n)
  phase : Fin n → TxPhase

/-- Interleaving small-step semantics of `n` concurrent order transactions
on one product row; `qty i` is the quantity client `i` requests. -/
inductive OrderTxStep {n : Nat} (qty : Fin n → Nat) :
    ConcState n → ConcState n → Prop where
  | lockRead (s : ConcState n) (i : Fin n)
      (hfree : s.lockOwner = none) (hph : s.phase i = .start) :
      OrderTxStep qty s
        ⟨s.stock, some i, Function.update s.phase i (.locked s.stock)⟩
  | writeStock (s : ConcState n) (i : Fin n) (r : Int)
      (hph : s.phase i = .locked r) (hok : (qty i : Int) ≤ r) :
      OrderTxStep qty s
        ⟨r - qty i, s.lockOwner, Function.update s.phase i .written⟩
  | commitTx (s : ConcState n) (i : Fin n)
      (hph : s.phase i = .written) :
      OrderTxStep qty s
        ⟨s.stock, none, Function.update s.phase i (.done (qty i))⟩
  | insufficientRollback (s : ConcState n) (i : Fin n) (r : Int)
      (hph : s.phase i = .locked r) (hfail : r < (qty i : Int)) :
      OrderTxStep qty s
        ⟨s.stock, none, Function.update s.phase i (.done 0)⟩
  | abortRollback (s : ConcState n) (i : Fin n)
      (hph : s.phase i = .written) :
      OrderTxStep qty s
        ⟨s.stock + qty i, none, Function.update s.phase i (.done 0)⟩

/-- All clients at the start, nothing deducted. -/
def initConc (n : Nat) (stock0 : Int) : ConcState n :=
  ⟨stock0, none, fun _ => .start⟩

/-- Pending-or-committed deduction a client accounts for. -/
def contribOf (q : Nat) : TxPhase → Int
  | .written => (q : Int)
  | .done d => (d : Int)
  | _ => 0

theorem contribOf_start (q : Nat) : contribOf q .start = 0 := rfl

theorem contribOf_locked (q : Nat) (r : Int) : contribOf q (.locked r) = 0 := rfl

theorem contribOf_written (q : Nat) : contribOf q .written = (q : Int) := rfl

theorem contribOf_done (q d : Nat) : contribOf q (.done d) = (d : Int) := rfl

/-- Inductive invariant of the concurrent system: only the lock holder is
mid-transaction, its read is the current stock, stock stays non-negative,
and stock plus all accounted deductions equals the initial stock. -/
structure ConcInv {n : Nat} (qty : Fin n → Nat) (stock0 : Int)
    (s : ConcState n) : Prop where
  owner_active : ∀ i, (s.phase i = .written ∨ ∃ r, s.phase i = .locked r) →
    s.lockOwner = some i
  read_current : ∀ i r, s.phase i = .locked r → r = s.stock
  nonneg : 0 ≤ s.stock
  account : s.stock + ∑ i, contribOf (qty i) (s.phase i) = stock0

theorem sum_contrib_update {n : Nat} (qty : Fin n → Nat) (ph : Fin n → TxPhase)
    (i : Fin n) (v : TxPhase) :
    ∑ j, contribOf (qty j) (Function.update ph i v j) =
      ∑ j, contribOf (qty j) (ph j) - contribOf (qty i) (ph i)
        + contribOf (qty i) v := by
  have h : (fun j => contribOf (qty j) (Function.update ph i v j)) =
      Function.update (fun j => contribOf (qty j) (ph j)) i (contribOf (qty i) v) := by
    funext j
    by_cases hji : j = i
    · subst hji; simp
    · simp [Function.update_noteq hji]
  rw [show (∑ j, contribOf (qty j) (Function.update ph i v j)) =
      ∑ j, Function.update (fun k => contribOf (qty k) (ph k)) i
        (contribOf (qty i) v) j from by rw [← h]]
  rw [Finset.sum_update_of_mem (Finset.mem_univ i)]
  rw [Finset.sum_eq_sum_diff_singleton_add (Finset.mem_univ i)
    (fun j => contribOf (qty j) (ph j))]
  ring

theorem ConcInv_step {n : Nat} {qty : Fin n → Nat} {stock0 : Int}
    {s s' : ConcState n} (hinv : ConcInv qty stock0 s)
    (hstep : OrderTxStep qty s s') : ConcInv qty stock0 s' := by
  obtain ⟨hact, hread, hnn, hacc⟩ := hinv
  cases hstep with
  | lockRead i hfree hph =>
    refine ⟨?_, ?_, hnn, ?_⟩
    · intro j hj
      dsimp only at hj ⊢
      by_cases hji : j = i
      · subst hji; rfl
      · rw [show (Function.update s.phase i (TxPhase.locked s.stock)) j = s.phase j
            from Function.update_noteq hji _ _] at hj
        have := hact j hj
        rw [hfree] at this
        cases this
    · intro j r hj
      dsimp only at hj ⊢
      by_cases hji : j = i
      · subst hji
        rw [Function.update_same] at hj
        cases hj
        rfl
      · rw [Function.update_noteq hji] at hj
        have := hact j (Or.inr ⟨r, hj⟩)
        rw [hfree] at this
        cases this
    · show s.stock + _ = stock0
      rw [sum_contrib_update, hph]
      simp only [contribOf_start, contribOf_locked, contribOf_written, contribOf_done]
      omega
  | writeStock i r hph hok =>
    have hown : s.lockOwner = some i := hact i (Or.inr ⟨r, hph⟩)
    have hr : r = s.stock := hread i r hph
    refine ⟨?_, ?_, by dsimp only; omega, ?_⟩
    · intro j hj
      dsimp only at hj ⊢
      by_cases hji : j = i
      · subst hji; exact hown
      · rw [show (Function.update s.phase i TxPhase.written) j = s.phase j
            from Function.update_noteq hji _ _] at hj
        have := hact j hj
        rw [hown] at this
        exact absurd (Option.some.inj this).symm hji
    · intro j r' hj
      dsimp only at hj ⊢
      by_cases hji : j = i
      · subst hji
        rw [Function.update_same] at hj
        cases hj
      · rw [Function.update_noteq hji] at hj
        have := hact j (Or.inr ⟨r', hj⟩)
        rw [hown] at this
        exact absurd (Option.some.inj this).symm hji
    · show r - (qty i : Int) + _ = stock0
      rw [sum_contrib_update, hph]
      simp only [contribOf_start, contribOf_locked, contribOf_written, contribOf_done]
      omega
  | commitTx i hph =>
    have hown : s.lockOwner = some i := hact i (Or.inl hph)
    refine ⟨?_, ?_, hnn, ?_⟩
    · intro j hj
      dsimp only at hj ⊢
      by_cases hji : j = i
      · subst hji
        rw [show (Function.update s.phase j (TxPhase.done (qty j))) j =
            TxPhase.done (qty j) from Function.update_same _ _ _] at hj
        rcases hj with hj | ⟨r', hj⟩ <;> cases hj
      · rw [show (Function.update s.phase i (TxPhase.done (qty i))) j = s.phase j
            from Function.update_noteq hji _ _] at hj
        have := hact j hj
        rw [hown] at this
        exact absurd (Option.some.inj this).symm hji
    · intro j r' hj
      dsimp only at hj ⊢
      by_cases hji : j = i
      · subst hji
        rw [Function.update_same] at hj
        cases hj
      · rw [Function.update_noteq hji] at hj
        have := hact j (Or.inr ⟨r', hj⟩)
        rw [hown] at this
        exact absurd (Option.some.inj this).symm hji
    · show s.stock + _ = stock0
      rw [sum_contrib_update, hph]
      simp only [contribOf_start, contribOf_locked, contribOf_written, contribOf_done]
      omega
  | insufficientRollback i r hph hfail =>
    have hown : s.lockOwner = some i := hact i (Or.inr ⟨r, hph⟩)
    refine ⟨?_, ?_, hnn, ?_⟩
    · intro j hj
      dsimp only at hj ⊢
      by_cases hji : j = i
      · subst hji
        rw [show (Function.update s.phase j (TxPhase.done 0)) j = TxPhase.done 0
            from Function.update_same _ _ _] at hj
        rcases hj with hj | ⟨r', hj⟩ <;> cases hj
      · rw [show (Function.update s.phase i (TxPhase.done 0)) j = s.phase j
            from Function.update_noteq hji _ _] at hj
        have := hact j hj
        rw [hown] at this
        exact absurd (Option.some.inj this).symm hji
    · intro j r' hj
      dsimp only at hj ⊢
      by_cases hji : j = i
      · subst hji
        rw [Function.update_same] at hj
        cases hj
      · rw [Function.update_noteq hji] at hj
        have := hact j (Or.inr ⟨r', hj⟩)
        rw [hown] at this
        exact absurd (Option.some.inj this).symm hji
    · show s.stock + _ = stock0
      rw [sum_contrib_update, hph]
      simp only [contribOf_start, contribOf_locked, contribOf_written, contribOf_done]
      omega
  | abortRollback i hph =>
    have hown : s.lockOwner = some i := hact i (Or.inl hph)
    refine ⟨?_, ?_, by dsimp only; omega, ?_⟩
    · intro j hj
      dsimp only at hj ⊢
      by_cases hji : j = i
      · subst hji
        rw [show (Function.update s.phase j (TxPhase.done 0)) j = TxPhase.done 0
            from Function.update_same _ _ _] at hj
        rcases hj with hj | ⟨r', hj⟩ <;> cases hj
      · rw [show (Function.update s.phase i (TxPhase.done 0)) j = s.phase j
            from Function.update_noteq hji _ _] at hj
        have := hact j hj
        rw [hown] at this
        exact absurd (Option.some.inj this).symm hji
    · intro j r' hj
      dsimp only at hj ⊢
      by_cases hji : j = i
      · subst hji
        rw [Function.update_same] at hj
        cases hj
      · rw [Function.update_noteq hji] at hj
        have := hact j (Or.inr ⟨r', hj⟩)
        rw [hown] at this
        exact absurd (Option.some.inj this).symm hji
    · show s.stock + (qty i : Int) + _ = stock0
      rw [sum_contrib_update, hph]
      simp only [contribOf_start, contribOf_locked, contribOf_written, contribOf_done]
      omega

theorem ConcInv_reachable {n : Nat} {qty : Fin n → Nat} {stock0 : Int}
    (h0 : 0 ≤ stock0) {s : ConcState n}
    (hreach : Relation.ReflTransGen (OrderTxStep qty) (initConc n stock0) s) :
    ConcInv qty stock0 s := by
  induction hreach with
  | refl =>
    refine ⟨?_, ?_, h0, ?_⟩
    · intro i hi
      rcases hi with hi | ⟨r, hi⟩ <;> cases hi
    · intro i r hi
      cases hi
    · show stock0 + _ = stock0
      simp [contribOf, initConc]
  | tail _ hstep ih => exact ConcInv_step ih hstep

/-- C4: for any set of concurrently submitted orders against the same
product, serialized only by the per-row UPDATE lock taken inside each
transaction, the sum of the quantities successfully deducted across all
interleavings never exceeds the stock at the start of the first
deduction (the initial stock, which is unchanged until that point). -/
theorem C4_concurrent_deductions_bounded (n : Nat) (qty : Fin n → Nat)
    (stock0 : Int) (h0 : 0 ≤ stock0) (deducted : Fin n → Nat) (s : ConcState n)
    (hreach : Relation.ReflTransGen (OrderTxStep qty) (initConc n stock0) s)
    (hdone : ∀ i, s.phase i = .done (deducted i)) :
    ∑ i, (deducted i : Int) ≤ stock0 := by
  have hinv := ConcInv_reachable h0 hreach
  have hsum : ∑ i, contribOf (qty i) (s.phase i) = ∑ i, (deducted i : Int) := by
    refine Finset.sum_congr rfl (fun i _ => ?_)
    rw [hdone i, contribOf_done]
  have hacc := hinv.account
  rw [hsum] at hacc
  have hnn := hinv.nonneg
  omega

/-- Quantities requested by the two clients of the C4 witness run. -/
def qtyW : Fin 2 → Nat := fun i => if i = 0 then 3 else 4

/-- Deductions obtained in the C4 witness run: client 0 succeeds with 3,
client 1 is rejected for insufficient stock. -/
def dedW : Fin 2 → Nat := fun i => if i = 0 then 3 else 0

/-- States of the C4 witness run, starting from stock 5. -/
def cw0 : ConcState 2 := initConc 2 5

def cw1 : ConcState 2 := ⟨5, some 0, Function.update cw0.phase 0 (.locked 5)⟩

def cw2 : ConcState 2 := ⟨2, some 0, Function.update cw1.phase 0 .written⟩

def cw3 : ConcState 2 := ⟨2, none, Function.update cw2.phase 0 (.done 3)⟩

def cw4 : ConcState 2 := ⟨2, some 1, Function.update cw3.phase 1 (.locked 2)⟩

def cw5 : ConcState 2 := ⟨2, none, Function.update cw4.phase 1 (.done 0)⟩

theorem cwChain : Relation.ReflTransGen (OrderTxStep qtyW) cw0 cw5 :=
  Relation.ReflTransGen.tail
    (Relation.ReflTransGen.tail
      (Relation.ReflTransGen.tail
        (Relation.ReflTransGen.tail
          (Relation.ReflTransGen.tail Relation.ReflTransGen.refl
            (OrderTxStep.lockRead cw0 0 rfl rfl))
          (OrderTxStep.writeStock cw1 0 5 (by decide) (by decide)))
        (OrderTxStep.commitTx cw2 0 (by decide)))
      (OrderTxStep.lockRead cw3 1 rfl (by decide)))
    (OrderTxStep.insufficientRollback cw4 1 2 (by decide) (by decide))

/-- Witness: C4 at a concrete two-client interleaving over stock 5 with
requests 3 and 4; the deductions 3 and 0 sum to at most 5. -/
theorem C4_concurrent_deductions_bounded_witness :
    ∑ i, (dedW i : Int) ≤ 5 :=
  C4_concurrent_deductions_bounded 2 qtyW 5 (by decide) dedW cw5 cwChain (by decide)

/-! ### C5: GenerateJWT / ValidateJWT (internal/auth/jwt.go) -/

/-- The claims payload of jwt.go:11-16 plus the registered claims set by
`GenerateJWT`. -/
structure JwtClaims where
  userID : Nat
  name : String
  email : String
  expiresAt : Nat
  issuedAt : Nat
  issuer : String
deriving DecidableEq, Repr

/-- The signing methods involved in jwt.go: `SigningMethodES256` is used
to sign (jwt.go:38) and `ValidateJWT`'s keyfunc accepts only
`SigningMethodHMAC` (jwt.go:56). -/
inductive SigningMethod where
  | HS256
  | ES256
deriving DecidableEq, Repr

/-- Keys a caller can hand to golang-jwt: a byte-slice secret (what
`[]byte(secret)` produces) or an ECDSA private key. -/
inductive SigningKey where
  | secretBytes (secret : String)
  | ecdsaPrivateKey (k : Nat)
deriving DecidableEq, Repr

/-- Idealized unforgeable signature value. -/
inductive Sig where
  | hmac (secret : String) (c : JwtClaims)
  | ecdsa (k : Nat) (c : JwtClaims)
deriving DecidableEq, Repr

/-- A serialized signed token. -/
structure SignedToken where
  method : SigningMethod
  claims : JwtClaims
  sig : Sig
deriving DecidableEq, Repr

inductive JwtError where
  | jwtSecretNotSet
  | invalidKeyType
  | unexpectedSigningMethod
  | invalidSignature
deriving DecidableEq, Repr

/-- golang-jwt's `Token.SignedString` dispatch as the library defines it:
`SigningMethodHMAC.Sign` accepts a byte-slice key, while
`SigningMethodECDSA.Sign` demands an ECDSA private key and fails with
`ErrInvalidKeyType` for any other key type. -/
def signedString (m : SigningMethod) (k : SigningKey) (c : JwtClaims) :
    Except JwtError SignedToken :=
  match m, k with
  | .HS256, .secretBytes s => .ok ⟨.HS256, c, .hmac s c⟩
  | .ES256, .ecdsaPrivateKey kk => .ok ⟨.ES256, c, .ecdsa kk c⟩
  | _, _ => .error .invalidKeyType

/-- `GenerateJWT` (jwt.go:19-45): reject an unset `JWT_SECRET`, build
claims with a 24-hour expiry and issuer `tundra`, then sign with
`SigningMethodES256` using the byte-slice secret (jwt.go:38-39). -/
def GenerateJWT (jwtSecret : String) (now : Nat) (userID : Nat)
    (name email : String) : Except JwtError SignedToken :=
  if jwtSecret = "" then .error .jwtSecretNotSet
  else
    signedString .ES256 (.secretBytes jwtSecret)
      { userID := userID, name := name, email := email,
        expiresAt := now + 24 * 3600, issuedAt := now, issuer := "tundra" }

/-- `ValidateJWT` (jwt.go:48-71): reject an unset secret; the keyfunc
rejects any token whose method is not HMAC (jwt.go:56); otherwise the
HMAC signature is checked against the byte-slice secret. -/
def ValidateJWT (jwtSecret : String) (tok : SignedToken) :
    Except JwtError JwtClaims :=
  if jwtSecret = "" then .error .jwtSecretNotSet
  else
    match tok.method with
    | .ES256 => .error .unexpectedSigningMethod
    | .HS256 =>
      if tok.sig = .hmac jwtSecret tok.claims then .ok tok.claims
      else .error .invalidSignature

/-- C5 (code-bug evidence): for every non-empty `JWT_SECRET`,
`GenerateJWT` never returns a token - it hands `SigningMethodES256` a
byte-slice key, which golang-jwt rejects with `ErrInvalidKeyType` - so the
issue/verify pair can never round-trip; independently, `ValidateJWT`
rejects every ES256 token because its keyfunc accepts only HMAC. -/
theorem C5_generateJWT_never_issues_token (jwtSecret : String)
    (hs : jwtSecret ≠ "") (now userID : Nat) (name email : String) :
    GenerateJWT jwtSecret now userID name email = .error .invalidKeyType ∧
    ∀ tok : SignedToken, tok.method = .ES256 →
      ValidateJWT jwtSecret tok = .error .unexpectedSigningMethod := by
  constructor
  · simp [GenerateJWT, hs, signedString]
  · intro tok hm
    simp [ValidateJWT, hs, hm]

/-- Witness: C5 evidence at the secret the auth test-suite sets. -/
theorem C5_generateJWT_never_issues_token_witness :
    GenerateJWT "test-secret-key" 0 1 "testuser" "test@example.com" =
      .error .invalidKeyType :=
  (C5_generateJWT_never_issues_token "test-secret-key" (by decide) 0 1
    "testuser" "test@example.com").1

/-! ### C6: product-listing cache invalidation (routes.go:82-93) -/

/-- Fuel-indexed Redis `MATCH` glob matcher: `*` matches any run of
characters, `?` one character, any other character itself.  The fuel only
bounds recursion depth; every call site supplies more fuel than the
matcher can consume. -/
def globMatchF : Nat → List Char → List Char → Bool
  | 0, _, _ => false
  | _ + 1, [], [] => true
  | f + 1, '*' :: ps, [] => globMatchF f ps []
  | _ + 1, _ :: _, [] => false
  | _ + 1, [], _ :: _ => false
  | f + 1, '*' :: ps, c :: cs =>
    globMatchF f ps (c :: cs) || globMatchF f ('*' :: ps) cs
  | f + 1, '?' :: ps, _ :: cs => globMatchF f ps cs
  | f + 1, p :: ps, c :: cs => (p == c) && globMatchF f ps cs

/-- Whether a Redis key matches a glob pattern. -/
def globMatch (p s : List Char) : Bool :=
  globMatchF (p.length + s.length + 1) p s

/-- `invalidateProductCache` (routes.go:82-93): when Redis is configured
(`cache = some entries`), scan for keys matching `products:*` and delete
every one of them; a nil Redis client leaves nothing to do. -/
def invalidateProductCache (cache : Option (List (String × String))) :
    Option (List (String × String)) :=
  cache.map (fun entries =>
    entries.filter (fun kv => !(globMatch "products:*".data kv.1.data)))

/-- The server state the product CRUD path touches: the product table and
the Redis cache (`none` models `s.redis == nil`). -/
structure CatalogState where
  products : List Product
  cache : Option (List (String × String))
deriving DecidableEq, Repr

/-- Outcome of a CRUD handler, success or any error response. -/
inductive CrudOutcome where
  | errResp
  | okResp
deriving DecidableEq, Repr

/-- The multipart form of `createProductHandler`; `priceParsed` /
`stockParsed` carry the result of `strconv.ParseFloat` /
`strconv.ParseInt` on the raw field (`none` = parse error), next to the
raw strings for the required-field check. -/
structure CreateProductForm where
  name : String
  description : String
  priceStr : String
  priceParsed : Option Rat
  stockStr : String
  stockParsed : Option Int
  category : String

/-- `createProductHandler` (routes.go:263-356): parse the form, validate
the required fields, price and stock, require the authenticated user,
optionally upload the image (failing when Cloudinary is absent or the
upload errors), create the row, and only then invalidate the product
cache. -/
def createProductHandler (st : CatalogState) (formParseOk : Bool)
    (form : CreateProductForm) (userID : Option Nat) (imageProvided : Bool)
    (cloudinaryAvail : Bool) (uploadResult : Option String)
    (dbCreateOk : Bool) (newID : Nat) : CatalogState × CrudOutcome :=
  if !formParseOk then (st, .errResp)
  else if form.name = "" ∨ form.description = "" ∨ form.priceStr = "" ∨
      form.stockStr = "" ∨ form.category = "" then (st, .errResp)
  else
    match form.priceParsed with
    | none => (st, .errResp)
    | some price =>
      if price ≤ 0 then (st, .errResp)
      else
        match form.stockParsed with
        | none => (st, .errResp)
        | some stock =>
          if stock < 0 then (st, .errResp)
          else
            match userID with
            | none => (st, .errResp)
            | some uid =>
              match (if imageProvided then
                       if !cloudinaryAvail then none
                       else match uploadResult with
                            | none => none
                            | some url => some (some url)
                     else some none : Option (Option String)) with
              | none => (st, .errResp)
              | some imgOpt =>
                if !dbCreateOk then (st, .errResp)
                else
                  ({ products := st.products ++
                       [{ id := newID, name := form.name,
                          description := form.description, price := price,
                          stock := stock, category := form.category,
                          imageURL := imgOpt.getD "", userID := uid }],
                     cache := invalidateProductCache st.cache },
                   .okResp)

/-- The optional-field body of `updateProductHandler` (routes.go:385-391). -/
structure UpdateProductRequest where
  name : Option String
  description : Option String
  price : Option Rat
  stock : Option Int
  category : Option String

/-- A provided string field that is empty (routes.go:402, 411, 438). -/
def invalidOptField (o : Option String) : Bool :=
  match o with
  | some v => v == ""
  | none => false

/-- A provided price that is not positive (routes.go:420). -/
def invalidOptPrice (o : Option Rat) : Bool :=
  match o with
  | some v => decide (v ≤ 0)
  | none => false

/-- A provided stock that is negative (routes.go:429). -/
def invalidOptStock (o : Option Int) : Bool :=
  match o with
  | some v => decide (v < 0)
  | none => false

/-- `updateProductHandler` (routes.go:373-458): look the product up,
validate each provided field in order (any failure returns before the
save), save, then invalidate the product cache.  The code interleaves
each field's validation with its assignment; since every validation
failure returns with the database untouched, validating first and then
assigning is behaviorally identical. -/
def updateProductHandler (st : CatalogState) (pid : Nat) (bindOk : Bool)
    (req : UpdateProductRequest) (dbSaveOk : Bool) :
    CatalogState × CrudOutcome :=
  match findProduct st.products pid with
  | none => (st, .errResp)
  | some p0 =>
    if !bindOk then (st, .errResp)
    else if invalidOptField req.name then (st, .errResp)
    else if invalidOptField req.description then (st, .errResp)
    else if invalidOptPrice req.price then (st, .errResp)
    else if invalidOptStock req.stock then (st, .errResp)
    else if invalidOptField req.category then (st, .errResp)
    else if !dbSaveOk then (st, .errResp)
    else
      ({ products := saveProduct st.products
           { p0 with
             name := req.name.getD p0.name,
             description := req.description.getD p0.description,
             price := req.price.getD p0.price,
             stock := req.stock.getD p0.stock,
             category := req.category.getD p0.category },
         cache := invalidateProductCache st.cache },
       .okResp)

/-- `deleteProductHandler` (routes.go:607-638): look the product up,
delete it (the best-effort Cloudinary image deletion does not touch this
state), then invalidate the product cache. -/
def deleteProductHandler (st : CatalogState) (pid : Nat)
    (dbDeleteOk : Bool) : CatalogState × CrudOutcome :=
  match findProduct st.products pid with
  | none => (st, .errResp)
  | some p0 =>
    if !dbDeleteOk then (st, .errResp)
    else
      ({ products := st.products.filter (fun q => !(q.id == p0.id)),
         cache := invalidateProductCache st.cache },
       .okResp)

theorem invalidateProductCache_clears (cache : Option (List (String × String)))
    (entries : List (String × String))
    (h : invalidateProductCache cache = some entries) :
    ∀ kv ∈ entries, globMatch "products:*".data kv.1.data = false := by
  cases cache with
  | none => cases h
  | some c =>
    simp only [invalidateProductCache, Option.map_some'] at h
    cases h
    intro kv hkv
    have := (List.mem_filter.mp hkv).2
    simpa using this

theorem createProductHandler_ok_cache (st : CatalogState) (fpOk : Bool)
    (form : CreateProductForm) (uid : Option Nat) (imgP cAvail : Bool)
    (upR : Option String) (dbOk : Bool) (newID : Nat)
    (hok : (createProductHandler st fpOk form uid imgP cAvail upR dbOk newID).2 =
      .okResp) :
    (createProductHandler st fpOk form uid imgP cAvail upR dbOk newID).1.cache =
      invalidateProductCache st.cache := by
  revert hok
  simp only [createProductHandler]
  repeat' split
  all_goals intro h
  all_goals first
    | rfl
    | cases h

theorem updateProductHandler_ok_cache (st : CatalogState) (pid : Nat)
    (bindOk : Bool) (req : UpdateProductRequest) (dbSaveOk : Bool)
    (hok : (updateProductHandler st pid bindOk req dbSaveOk).2 = .okResp) :
    (updateProductHandler st pid bindOk req dbSaveOk).1.cache =
      invalidateProductCache st.cache := by
  revert hok
  simp only [updateProductHandler]
  repeat' split
  all_goals intro h
  all_goals first
    | rfl
    | cases h

theorem deleteProductHandler_ok_cache (st : CatalogState) (pid : Nat)
    (dbDeleteOk : Bool)
    (hok : (deleteProductHandler st pid dbDeleteOk).2 = .okResp) :
    (deleteProductHandler st pid dbDeleteOk).1.cache =
      invalidateProductCache st.cache := by
  revert hok
  simp only [deleteProductHandler]
  repeat' split
  all_goals intro h
  all_goals first
    | rfl
    | cases h

/-- C6: after every successful product create, update, or delete, no
cache entry whose key matches the pattern `products:*` survives in the
cache - every cached product listing is gone. -/
theorem C6_product_mutations_clear_listing_cache (st : CatalogState) :
    (∀ fpOk form uid imgP cAvail upR dbOk newID entries,
      (createProductHandler st fpOk form uid imgP cAvail upR dbOk newID).2 = .okResp →
      (createProductHandler st fpOk form uid imgP cAvail upR dbOk newID).1.cache =
        some entries →
      ∀ kv ∈ entries, globMatch "products:*".data kv.1.data = false) ∧
    (∀ pid bindOk req dbSaveOk entries,
      (updateProductHandler st pid bindOk req dbSaveOk).2 = .okResp →
      (updateProductHandler st pid bindOk req dbSaveOk).1.cache = some entries →
      ∀ kv ∈ entries, globMatch "products:*".data kv.1.data = false) ∧
    (∀ pid dbDeleteOk entries,
      (deleteProductHandler st pid dbDeleteOk).2 = .okResp →
      (deleteProductHandler st pid dbDeleteOk).1.cache = some entries →
      ∀ kv ∈ entries, globMatch "products:*".data kv.1.data = false) := by
  refine ⟨?_, ?_, ?_⟩
  · intro fpOk form uid imgP cAvail upR dbOk newID entries hok hcache
    rw [createProductHandler_ok_cache st fpOk form uid imgP cAvail upR dbOk newID hok]
      at hcache
    exact invalidateProductCache_clears st.cache entries hcache
  · intro pid bindOk req dbSaveOk entries hok hcache
    rw [updateProductHandler_ok_cache st pid bindOk req dbSaveOk hok] at hcache
    exact invalidateProductCache_clears st.cache entries hcache
  · intro pid dbDeleteOk entries hok hcache
    rw [deleteProductHandler_ok_cache st pid dbDeleteOk hok] at hcache
    exact invalidateProductCache_clears st.cache entries hcache

/-- Catalog state for the C6 witness: one product, a cache holding a
product-listing entry and an unrelated entry. -/
def catalogW : CatalogState :=
  { products := [sampleProduct],
    cache := some [("products:page:1:size:10:search:", "cached-listing"),
                   ("session:42", "cached-session")] }

/-- Witness: C6 at a concrete successful delete; the surviving cache
entry does not match `products:*`. -/
theorem C6_product_mutations_clear_listing_cache_witness :
    ∀ kv ∈ [(("session:42" : String), ("cached-session" : String))],
      globMatch "products:*".data kv.1.data = false :=
  (C6_product_mutations_clear_listing_cache catalogW).2.2 1 true
    [("session:42", "cached-session")] (by decide) (by decide)

/-! ### C7: rate-limit tiers (ratelimit package, RegisterRoutes wiring) -/

/-- `RateLimitConfig` (the ratelimit package). -/
structure RateLimitConfig where
  global : String
  auth : String
  api : String
deriving DecidableEq, Repr

/-- `DefaultConfig`: 1000/hour global, 5/minute auth, 100/minute API. -/
def DefaultConfig : RateLimitConfig :=
  { global := "1000-H", auth := "5-M", api := "100-M" }

/-- A parsed rate: `limit` requests per `periodSec` seconds. -/
structure Rate where
  limit : Nat
  periodSec : Nat
deriving DecidableEq, Repr

/-- Decimal value of a digit string. -/
def digitsToNat (ds : List Char) : Nat :=
  ds.foldl (fun acc c => acc * 10 + (c.toNat - '0'.toNat)) 0

/-- `strconv.ParseInt`-style strict decimal parse of the limit part. -/
def parseDigits (ds : List Char) : Option Nat :=
  if ds.isEmpty then none
  else if ds.all Char.isDigit then some (digitsToNat ds)
  else none

/-- `strings.Split` on a single separator character. -/
def splitOnChar (sep : Char) : List Char → List (List Char)
  | [] => [[]]
  | c :: rest =>
    if c = sep then [] :: splitOnChar sep rest
    else
      match splitOnChar sep rest with
      | [] => [[c]]
      | g :: gs => (c :: g) :: gs

/-- `limiter.NewRateFromFormatted` for the `limit-period` format the
package documents in `NewRateLimiter`'s comment: period `S` = second,
`M` = minute, `H` = hour; anything else fails to parse. -/
def newRateFromFormatted (s : String) : Option Rate :=
  match splitOnChar '-' s.data with
  | [l, p] =>
    match parseDigits l with
    | none => none
    | some n =>
      match p.map Char.toUpper with
      | ['S'] => some { limit := n, periodSec := 1 }
      | ['M'] => some { limit := n, periodSec := 60 }
      | ['H'] => some { limit := n, periodSec := 3600 }
      | _ => none
  | _ => none

/-- The rate `NewRateLimiter rate` enforces: the parsed rate, or the
60-per-minute fallback when parsing fails. -/
def newRateLimiterRate (rate : String) : Rate :=
  match newRateFromFormatted rate with
  | some r => r
  | none => { limit := 60, periodSec := 60 }

/-- The five limiter instances `RegisterRoutes` creates, one per
middleware registration (routes.go:36, 43, 51, 59, 71); every
`NewRateLimiter` call builds its own in-memory store
(`memory.NewStore()`), so the instances are independent. -/
inductive LimiterId where
  | globalAll
  | authGroup
  | productsPublic
  | productsAdmin
  | ordersGroup
deriving DecidableEq, Repr

/-- The rate each instance enforces: one `GlobalLimiter`, one
`AuthLimiter`, three `APILimiter`s. -/
def limiterRate : LimiterId → Rate
  | .globalAll => newRateLimiterRate DefaultConfig.global
  | .authGroup => newRateLimiterRate DefaultConfig.auth
  | .productsPublic => newRateLimiterRate DefaultConfig.api
  | .productsAdmin => newRateLimiterRate DefaultConfig.api
  | .ordersGroup => newRateLimiterRate DefaultConfig.api

/-- The route groups of `RegisterRoutes`; `ungrouped` covers routes such
as `/swagger` that only the global limiter wraps. -/
inductive RouteGroup where
  | authG
  | productsPublicG
  | productsAdminG
  | ordersG
  | ungrouped
deriving DecidableEq, Repr

/-- Middleware chain per group: the global limiter first (applied to all
routes, routes.go:36), then the group's own limiter. -/
def groupLimiters : RouteGroup → List LimiterId
  | .authG => [.globalAll, .authGroup]
  | .productsPublicG => [.globalAll, .productsPublic]
  | .productsAdminG => [.globalAll, .productsAdmin]
  | .ordersG => [.globalAll, .ordersGroup]
  | .ungrouped => [.globalAll]

/-- Per-instance stores: request count in the current window, per IP. -/
def Stores : Type := LimiterId → String → Nat

/-- Count one request against limiter `l`'s store for `ip`. -/
def bump (st : Stores) (l : LimiterId) (ip : String) : Stores :=
  fun l' ip' => if l' = l ∧ ip' = ip then st l' ip' + 1 else st l' ip'

/-- Run a middleware chain: each limiter counts the request in its own
store and rejects with 429 once the count exceeds its limit (the ulule
middleware counts rejected requests too); later middlewares do not run
after a rejection. -/
def applyChain : List LimiterId → Stores → String → Stores × Bool
  | [], st, _ => (st, true)
  | l :: ls, st, ip =>
    if (limiterRate l).limit < bump st l ip l ip then (bump st l ip, false)
    else applyChain ls (bump st l ip) ip

/-- One HTTP request from `ip` routed to group `g`. -/
def handleRequest (g : RouteGroup) (ip : String) (st : Stores) :
    Stores × Bool :=
  applyChain (groupLimiters g) st ip

/-- A limiter not on the chain keeps all its counts. -/
theorem applyChain_untouched (ls : List LimiterId) (st : Stores) (ip : String)
    (l : LimiterId) (ip' : String) (hl : l ∉ ls) :
    (applyChain ls st ip).1 l ip' = st l ip' := by
  revert hl
  induction ls generalizing st with
  | nil => intro _; rfl
  | cons a as ih =>
    intro hl
    have hne : l ≠ a := fun h => hl (by simp [h])
    have hmem : l ∉ as := fun h => hl (List.mem_cons_of_mem _ h)
    simp only [applyChain]
    split
    · show bump st a ip l ip' = st l ip'
      simp [bump, hne]
    · rw [ih (bump st a ip) hmem]
      show bump st a ip l ip' = st l ip'
      simp [bump, hne]

/-- All counters at zero. -/
def zeroStores : Stores := fun _ _ => 0

/-- C7 counterexample: a single request routed to the `/auth` group is
also counted by the global limiter (which wraps all routes), raising the
global tier's count for that IP from 0 to 1 - so traffic that exhausts
the auth tier's quota does consume the global tier's quota, contrary to
the claim that no tier's traffic consumes any other tier's quota. -/
theorem C7_counterexample_auth_consumes_global :
    zeroStores .globalAll "10.0.0.1" = 0 ∧
    (handleRequest .authG "10.0.0.1" zeroStores).1 .globalAll "10.0.0.1" = 1 ∧
    (handleRequest .authG "10.0.0.1" zeroStores).2 = true := by
  refine ⟨rfl, ?_, ?_⟩ <;> decide

/-- C7 (amended): the default tier rates are 1000/hour (global), 5/minute
(auth) and 100/minute (API); a rate string that fails to parse falls back
to 60/minute; each of the five middleware registrations owns an
independent limiter instance with its own store, so a request to one
route group never touches the store of any limiter outside that group's
chain - in particular auth traffic consumes no API tier's quota and each
API group's traffic consumes neither the auth tier nor another API
group's quota - while every request additionally counts against the
global tier, which wraps all routes. -/
theorem C7_rate_limit_tiers_amended :
    limiterRate .globalAll = { limit := 1000, periodSec := 3600 } ∧
    limiterRate .authGroup = { limit := 5, periodSec := 60 } ∧
    limiterRate .productsPublic = { limit := 100, periodSec := 60 } ∧
    limiterRate .productsAdmin = { limit := 100, periodSec := 60 } ∧
    limiterRate .ordersGroup = { limit := 100, periodSec := 60 } ∧
    newRateFromFormatted "invalid-format" = none ∧
    newRateLimiterRate "invalid-format" = { limit := 60, periodSec := 60 } ∧
    (∀ g ip st l ip', l ∉ groupLimiters g →
      (handleRequest g ip st).1 l ip' = st l ip') ∧
    (∀ ip st l ip', l ≠ .globalAll → l ≠ .authGroup →
      (handleRequest .authG ip st).1 l ip' = st l ip') := by
  refine ⟨by decide, by decide, by decide, by decide, by decide, by decide,
    by decide, ?_, ?_⟩
  · intro g ip st l ip' hl
    exact applyChain_untouched _ _ _ _ _ hl
  · intro ip st l ip' h1 h2
    refine applyChain_untouched _ _ _ _ _ ?_
    simp [groupLimiters, h1, h2]

/-- Witness: C7 (amended) at a concrete request - auth traffic leaves the
public-products API store untouched. -/
theorem C7_rate_limit_tiers_amended_witness :
    (handleRequest .authG "10.0.0.1" zeroStores).1 .productsPublic "10.0.0.1" = 0 :=
  C7_rate_limit_tiers_amended.2.2.2.2.2.2.2.2 "10.0.0.1" zeroStores
    .productsPublic "10.0.0.1" (by decide) (by decide)

/-! ### C8: listProductsHandler pagination (routes.go:471-571, 876-880) -/

/-- Whitespace `fmt.Sscanf` verbs skip. -/
def isGoSpace (c : Char) : Bool :=
  c == ' ' || c == '\t' || c == '\n' || c == '\r'

/-- `parsePositiveInt` (routes.go:876-880): `fmt.Sscanf(s, "%d", &result)`
skips leading whitespace, reads an optionally signed run of decimal
digits, and ignores any trailing characters; it fails only when no digit
can be read.  Despite its name it can return non-positive values - the
call sites filter those. -/
def parsePositiveInt (s : String) : Option Int :=
  match s.data.dropWhile isGoSpace with
  | '-' :: rest =>
    match rest.takeWhile Char.isDigit with
    | [] => none
    | ds => some (-(digitsToNat ds : Int))
  | '+' :: rest =>
    match rest.takeWhile Char.isDigit with
    | [] => none
    | ds => some ((digitsToNat ds : Int))
  | cs =>
    match cs.takeWhile Char.isDigit with
    | [] => none
    | ds => some ((digitsToNat ds : Int))

/-- routes.go:473-481: the page defaults to 1; a nonempty `page` query
parameter replaces it only when it parses and the value is positive
(`c.Query` returns `""` for an absent parameter). -/
def resolvePage (pageParam : String) : Int :=
  if pageParam ≠ "" then
    match parsePositiveInt pageParam with
    | some v => if v > 0 then v else 1
    | none => 1
  else 1

/-- routes.go:483-492: the page size defaults to 10; a nonempty
`pageSize` parameter is consulted first, and only when `pageSize` is
absent is a nonempty `limit` parameter consulted. -/
def resolvePageSize (pageSizeParam limitParam : String) : Int :=
  if pageSizeParam ≠ "" then
    match parsePositiveInt pageSizeParam with
    | some v => if v > 0 then v else 10
    | none => 10
  else if limitParam ≠ "" then
    match parsePositiveInt limitParam with
    | some v => if v > 0 then v else 10
    | none => 10
  else 10

/-- routes.go:532-541: truncated integer division (Go `/` on ints),
incremented when there is a remainder, forced to 0 when there are no
products. -/
def totalPagesCalc (totalProducts pageSize : Int) : Int :=
  if totalProducts = 0 then 0
  else if totalProducts.tmod pageSize ≠ 0 then totalProducts.tdiv pageSize + 1
  else totalProducts.tdiv pageSize

/-- The pagination-relevant slice of `listProductsHandler`'s response on a
cache miss. -/
structure ListingPagination where
  currentPage : Int
  pageSize : Int
  totalPages : Int
deriving DecidableEq, Repr

/-- Resolved pagination of `listProductsHandler` for the given query
parameters and matching-product count. -/
def listProductsPagination (pageParam pageSizeParam limitParam : String)
    (totalProducts : Int) : ListingPagination :=
  { currentPage := resolvePage pageParam
    pageSize := resolvePageSize pageSizeParam limitParam
    totalPages := totalPagesCalc totalProducts
      (resolvePageSize pageSizeParam limitParam) }

/-- A numeric string in the plain sense: an optional sign followed by
nothing but digits. -/
def isNumericString (s : String) : Bool :=
  match s.data with
  | '-' :: rest => !rest.isEmpty && rest.all Char.isDigit
  | '+' :: rest => !rest.isEmpty && rest.all Char.isDigit
  | cs => !cs.isEmpty && cs.all Char.isDigit

/-- C8 counterexample: the query value `12abc` is not numeric, yet the
handler uses page 12 instead of the claimed default 1, because
`fmt.Sscanf` reads the leading `12` and ignores the trailing `abc`. -/
theorem C8_counterexample_trailing_garbage :
    isNumericString "12abc" = false ∧
    resolvePage "12abc" = 12 ∧
    (listProductsPagination "12abc" "" "" 100).currentPage ≠ 1 := by
  decide

/-- C8 (amended): page and page size default to 1 and 10 when the
parameter is absent, when no leading integer can be scanned from it, or
when the scanned value is zero or negative; a parameter whose scanned
leading integer is positive is used even when non-numeric characters
follow it; `pageSize` takes precedence - when it is nonempty, `limit` is
never consulted - and when `pageSize` is absent `limit` is resolved by
exactly the same rules; `totalPages` equals the ceiling of
`totalProducts / pageSize` (which is 0 when `totalProducts` is 0). -/
theorem C8_pagination_amended :
    (∀ s : String, (s = "" ∨ parsePositiveInt s = none ∨
        (∃ v, parsePositiveInt s = some v ∧ v ≤ 0)) → resolvePage s = 1) ∧
    (∀ (s : String) (v : Int), s ≠ "" → parsePositiveInt s = some v → 0 < v →
      resolvePage s = v) ∧
    (∀ a b b' : String, a ≠ "" → resolvePageSize a b = resolvePageSize a b') ∧
    (∀ b : String, resolvePageSize "" b = resolvePageSize b "") ∧
    (∀ t ps : Nat, 0 < ps →
      totalPagesCalc (t : Int) (ps : Int) = (((t + ps - 1) / ps : Nat) : Int)) := by
  refine ⟨?_, ?_, ?_, ?_, ?_⟩
  · intro s h
    rcases h with rfl | hnone | ⟨v, hv, hle⟩
    · simp [resolvePage]
    · by_cases hs : s = ""
      · simp [resolvePage, hs]
      · simp [resolvePage, hs, hnone]
    · by_cases hs : s = ""
      · simp [resolvePage, hs]
      · simp [resolvePage, hs, hv, show ¬v > 0 from by omega]
  · intro s v hs hv hpos
    simp [resolvePage, hs, hv, hpos]
  · intro a b b' ha
    simp [resolvePageSize, ha]
  · intro b
    by_cases hb : b = ""
    · simp [resolvePageSize, hb]
    · simp [resolvePageSize, hb]
  · intro t ps hps
    have htdiv : Int.tdiv (t : Int) (ps : Int) = ((t / ps : Nat) : Int) := rfl
    have htmod : Int.tmod (t : Int) (ps : Int) = ((t % ps : Nat) : Int) := rfl
    simp only [totalPagesCalc, htdiv, htmod]
    have h1 : t = ps * (t / ps) + t % ps := (Nat.div_add_mod t ps).symm
    have h2 : t % ps < ps := Nat.mod_lt _ hps
    by_cases h0 : t = 0
    · subst h0
      have hdiv : (0 + ps - 1) / ps = 0 := Nat.div_eq_of_lt (by omega)
      rw [hdiv]
      simp
    · rw [if_neg (by exact_mod_cast h0)]
      by_cases hr : t % ps = 0
      · have hdiv : (t + ps - 1) / ps = t / ps := by
          rw [show t + ps - 1 = ps * (t / ps) + (ps - 1) from by omega]
          rw [Nat.mul_add_div hps,
            Nat.div_eq_of_lt (show ps - 1 < ps from by omega), Nat.add_zero]
        rw [if_neg (by simp [hr]), hdiv]
      · have hB : ps * (t / ps + 1) = ps * (t / ps) + ps := by ring
        have hdiv : (t + ps - 1) / ps = t / ps + 1 := by
          rw [show t + ps - 1 = ps * (t / ps + 1) + (t % ps - 1) from by omega]
          rw [Nat.mul_add_div hps,
            Nat.div_eq_of_lt (show t % ps - 1 < ps from by omega), Nat.add_zero]
        rw [if_pos (by exact_mod_cast hr), hdiv]
        omega

/-- Witness: C8 (amended) at the concrete parameter `7`, which resolves
to page 7. -/
theorem C8_pagination_amended_witness : resolvePage "7" = 7 :=
  C8_pagination_amended.2.1 "7" 7 (by decide) (by decide) (by decide)

/-! ### C9: loginHandler failure indistinguishability (routes.go:192-243) -/

/-- `models.User` as the login path uses it (including the `Role` field
routes.go reads). -/
structure UserRow where
  id : Nat
  username : String
  email : String
  password : String
  role : String
deriving DecidableEq, Repr

/-- Character class `[a-zA-Z0-9._%+-]` of the email regex. -/
def isLocalChar (c : Char) : Bool :=
  c.isAlpha || c.isDigit || c == '.' || c == '_' || c == '%' || c == '+' || c == '-'

/-- Character class `[a-zA-Z0-9.-]` of the email regex. -/
def isDomainChar (c : Char) : Bool :=
  c.isAlpha || c.isDigit || c == '.' || c == '-'

/-- The `[a-zA-Z0-9.-]+\.[a-zA-Z]{2,}$` tail of the email regex: the
maximal alphabetic suffix must have length at least 2, be preceded by a
literal dot, and the nonempty remainder before that dot must stay in the
domain class.  (Any other split would place a dot inside the trailing
letter run, so checking the maximal suffix is exhaustive.) -/
def domainOk (d : List Char) : Bool :=
  match d.reverse.dropWhile Char.isAlpha with
  | '.' :: body =>
    decide (2 ≤ (d.reverse.takeWhile Char.isAlpha).length) &&
      (!body.isEmpty && body.all isDomainChar)
  | _ => false

/-- Executable equivalent of `ValidateEmail` (validation.go:66-78): an
empty email is rejected, otherwise the string must match
`^[a-zA-Z0-9._%+-]+@[a-zA-Z0-9.-]+\.[a-zA-Z]{2,}$` - both character
classes exclude `@`, so a match has exactly one `@`. -/
def validateEmail (email : String) : Bool :=
  if email = "" then false
  else
    match splitOnChar '@' email.data with
    | [localPart, domain] =>
      !localPart.isEmpty && localPart.all isLocalChar && domainOk domain
    | _ => false

/-- The response of `loginHandler`. -/
inductive LoginResp where
  | badRequest (msg : String)
  | unauthorized (msg : String)
  | serverError (msg : String)
  | okLogin (token : SignedToken)
deriving DecidableEq, Repr

/-- `loginHandler` (routes.go:192-243): bind the body (gin `required`
fails on an absent or empty field), validate the email format, look the
user up by email, compare the bcrypt hash, then issue the JWT.
`lookupUser` models the `email = ?` query, `bcryptMatches` the
`bcrypt.CompareHashAndPassword` oracle (hash, then password), and
`genJWT` the `auth.GenerateJWT` call. -/
def loginHandler (email password : String)
    (lookupUser : String → Option UserRow)
    (bcryptMatches : String → String → Bool)
    (genJWT : UserRow → Except JwtError SignedToken) : LoginResp :=
  if email = "" ∨ password = "" then
    .badRequest "Email and password are required"
  else if !(validateEmail email) then .badRequest "Invalid email format"
  else
    match lookupUser email with
    | none => .unauthorized "Invalid credentials"
    | some user =>
      if !(bcryptMatches user.password password) then
        .unauthorized "Invalid credentials"
      else
        match genJWT user with
        | .error _ => .serverError "Failed to generate authentication token"
        | .ok tok => .okLogin tok

/-- C9: for a well-formed login request, the response when no user with
that email exists and the response when the user exists but the password
mismatches are one and the same `401 {"error": "Invalid credentials"}` -
the two failure causes are indistinguishable from the response. -/
theorem C9_login_failures_indistinguishable (email password : String)
    (lookupNone lookupSome : String → Option UserRow) (u : UserRow)
    (bcryptMatches : String → String → Bool)
    (genJWT : UserRow → Except JwtError SignedToken)
    (hbind : ¬(email = "" ∨ password = ""))
    (hvalid : validateEmail email = true)
    (hnone : lookupNone email = none)
    (hsome : lookupSome email = some u)
    (hmismatch : bcryptMatches u.password password = false) :
    loginHandler email password lookupNone bcryptMatches genJWT =
      loginHandler email password lookupSome bcryptMatches genJWT ∧
    loginHandler email password lookupNone bcryptMatches genJWT =
      .unauthorized "Invalid credentials" := by
  have h1 : loginHandler email password lookupNone bcryptMatches genJWT =
      .unauthorized "Invalid credentials" := by
    simp [loginHandler, hbind, hvalid, hnone]
  have h2 : loginHandler email password lookupSome bcryptMatches genJWT =
      .unauthorized "Invalid credentials" := by
    simp [loginHandler, hbind, hvalid, hsome, hmismatch]
  exact ⟨h1.trans h2.symm, h1⟩

/-- A stored user for the C9 witness. -/
def userW : UserRow :=
  { id := 3, username := "john123", email := "john@example.com",
    password := "bcrypt-hash-of-something-else", role := "user" }

/-- Witness: C9 at a concrete request - unknown email and wrong password
produce the same response. -/
theorem C9_login_failures_indistinguishable_witness :
    loginHandler "john@example.com" "Password123!" (fun _ => none)
        (fun _ _ => false) (fun _ => .error .invalidKeyType) =
      loginHandler "john@example.com" "Password123!" (fun _ => some userW)
        (fun _ _ => false) (fun _ => .error .invalidKeyType) :=
  (C9_login_failures_indistinguishable "john@example.com" "Password123!"
    (fun _ => none) (fun _ => some userW) userW (fun _ _ => false)
    (fun _ => .error .invalidKeyType) (by decide) (by decide) rfl rfl rfl).1

/-! ### C10: UploadImage extension validation (cloudinary package) -/

/-- The allow-list of `UploadImage`. -/
def allowedExtensions : List String := [".jpg", ".jpeg", ".png", ".gif", ".webp"]

/-- Go's `filepath.Ext`: the suffix of the final path element beginning
at its last dot; empty when the final element has no dot. -/
def filepathExt (path : String) : String :=
  match path.data.reverse.dropWhile (fun c => !(c == '.') && !(c == '/')) with
  | '.' :: _ =>
    String.mk
      ('.' :: (path.data.reverse.takeWhile
        (fun c => !(c == '.') && !(c == '/'))).reverse)
  | _ => ""

/-- `strings.ToLower` (character-wise lowering; the filenames the claims
touch are ASCII, where Go and this model agree). -/
def toLowerStr (s : String) : String := String.mk (s.data.map Char.toLower)

/-- `strings.TrimSuffix`: drop `suf` when it ends `s`, else return `s`. -/
def trimSuffixStr (s suf : String) : String :=
  if suf.data.isSuffixOf s.data then
    String.mk (s.data.take (s.data.length - suf.data.length))
  else s

/-- The public ID `UploadImage` derives: the filename with the
(lowercased) extension trimmed, prefixed by the folder when one is
given. -/
def publicIDFor (filename folder : String) : String :=
  if folder = "" then trimSuffixStr filename (toLowerStr (filepathExt filename))
  else folder ++ "/" ++ trimSuffixStr filename (toLowerStr (filepathExt filename))

inductive UploadErr where
  | invalidFileType (ext : String)
  | readFailed
  | cloudinaryFailed
deriving DecidableEq, Repr

/-- `UploadImage(file, filename, folder)`: validate the lowercased
extension against the allow-list before anything else, read the file
(`readResult` is the `io.ReadAll` oracle), derive the public ID, then
call the SDK upload (`cloudUpload`, applied to the public ID, models the
Cloudinary round trip and yields the secure URL).  The second component
reports whether the upload call was attempted. -/
def UploadImage (readResult : Option (List Nat))
    (cloudUpload : String → Option String) (filename folder : String) :
    Except UploadErr String × Bool :=
  if !(allowedExtensions.contains (toLowerStr (filepathExt filename))) then
    (.error (.invalidFileType (toLowerStr (filepathExt filename))), false)
  else
    match readResult with
    | none => (.error .readFailed, false)
    | some _ =>
      match cloudUpload (publicIDFor filename folder) with
      | none => (.error .cloudinaryFailed, true)
      | some url => (.ok url, true)

/-- C10: a filename whose lowercased extension is not one of
`.jpg/.jpeg/.png/.gif/.webp` makes `UploadImage` return an error without
attempting any upload call, and an upload call is attempted only for
filenames with an allowed extension. -/
theorem C10_upload_requires_allowed_extension (readResult : Option (List Nat))
    (cloudUpload : String → Option String) (filename folder : String) :
    (allowedExtensions.contains (toLowerStr (filepathExt filename)) = false →
      (∃ e, (UploadImage readResult cloudUpload filename folder).1 = .error e) ∧
      (UploadImage readResult cloudUpload filename folder).2 = false) ∧
    ((UploadImage readResult cloudUpload filename folder).2 = true →
      allowedExtensions.contains (toLowerStr (filepathExt filename)) = true) := by
  constructor
  · intro hnot
    have hnot' : (toLowerStr (filepathExt filename)) ∉ allowedExtensions := by
      simpa using hnot
    simp [UploadImage, hnot']
  · intro hatt
    by_cases h : allowedExtensions.contains (toLowerStr (filepathExt filename))
    · exact h
    · exfalso
      rw [Bool.not_eq_true] at h
      have h' : (toLowerStr (filepathExt filename)) ∉ allowedExtensions := by
        simpa using h
      simp [UploadImage, h'] at hatt

/-- Witness: C10 at the concrete filename `malware.exe` - no upload is
attempted. -/
theorem C10_upload_requires_allowed_extension_witness :
    (UploadImage (some [1, 2, 3]) (fun _ => some "https://cdn.example/x")
      "malware.exe" "products").2 = false :=
  ((C10_upload_requires_allowed_extension (some [1, 2, 3])
    (fun _ => some "https://cdn.example/x") "malware.exe" "products").1
    (by decide)).2

end Tundra
